import Mathlib

/-!
Shallow embedding of the NeuroNest client (React + Supabase), covering the
vote-and-karma flow, community membership, the client-side rate limiter and
the signup validation layer.

Conventions of the embedding:
* Table rows are structures with the source's column names; `uuid` keys are
  modelled as `Nat`, `timestamptz` as `Nat`, SQL `integer` as `Int`
  (nullable columns as `Option Int`).
* Each Supabase call becomes a pure function on an explicit database value.
  supabase-js returns `{ data, error }` instead of throwing; call sites that
  discard the result therefore ignore failures silently, while call sites
  that do `if (error) throw error` reach their surrounding `catch`, which is
  modelled by appending the `console.error` tag to an `errorLog` field.
* `.single()` yields the row when exactly one row matches and `null`
  otherwise (its error object is never inspected by this client).
* Database CHECK / UNIQUE constraints from the schema file are modelled at
  the writing operations: a write that violates a constraint leaves the
  database unchanged (and only surfaces as an error where the client code
  inspects the error).
* Injectable backend failures are threaded through a `Failures` record so
  that error-handling behaviour is part of the model; `noFailures` is the
  happy path.
-/

/-- A row of the `votes` table (post votes; `comment_id` votes are not
exercised by the modelled flows). Schema: `id` primary key,
`UNIQUE(user_id, post_id)`, `CHECK (vote_type IN (-1, 1))`. -/
structure DBVote where
  id : Nat
  user_id : Nat
  post_id : Nat
  vote_type : Int
deriving DecidableEq

/-- A row of the `profiles` table, restricted to the columns the modelled
flows touch. `total_karma integer DEFAULT 0` is nullable, with
`CONSTRAINT karma_positive CHECK (total_karma >= 0)`. -/
structure DBProfile where
  id : Nat
  total_karma : Option Int
deriving DecidableEq

/-- A row of the `posts` table, restricted to the columns the modelled flows
touch (`created_at` drives the ORDER BY of the posts query). -/
structure DBPost where
  id : Nat
  author_id : Nat
  created_at : Nat
deriving DecidableEq

/-- A row of the `communities` table, restricted to the modelled columns.
`member_count integer` has `CONSTRAINT member_count_positive CHECK
(member_count >= 0)`. -/
structure DBCommunity where
  id : Nat
  member_count : Int
deriving DecidableEq

/-- A row of the `community_members` table: `id` primary key,
`UNIQUE(community_id, user_id)`. -/
structure DBMember where
  id : Nat
  community_id : Nat
  user_id : Nat
deriving DecidableEq

/-- The backend database. `nextVoteId` / `nextMemberId` model the primary
keys the backend generates for inserted rows (fresh ids). -/
structure DB where
  votes : List DBVote
  nextVoteId : Nat
  profiles : List DBProfile
  posts : List DBPost
  members : List DBMember
  nextMemberId : Nat
  communities : List DBCommunity
deriving DecidableEq

/-- The profile columns embedded into a fetched post by the
`profiles!posts_author_id_fkey ( ..., total_karma, ... )` join. -/
structure ClientProfile where
  id : Nat
  total_karma : Option Int
deriving DecidableEq

/-- A post as held in the client's `posts` state after `fetchPosts`. -/
structure ClientPost where
  id : Nat
  author_id : Nat
  created_at : Nat
  profiles : ClientProfile
deriving DecidableEq

/-- A community as held in the client's `communities` state. -/
structure ClientCommunity where
  id : Nat
  member_count : Int
deriving DecidableEq

/-- The client-visible application state: the authenticated user (if any),
the backend database, the cached `posts` and `communities` React state, the
auth-modal flag, the `loading` flag and the log of `console.error` calls. -/
structure AppState where
  user : Option Nat
  db : DB
  posts : List ClientPost
  communities : List ClientCommunity
  showAuthModal : Bool
  loading : Bool
  errorLog : List String
deriving DecidableEq

/-- Which backend round trips fail (supabase-js reports failures in the
returned `error` field rather than by throwing). -/
structure Failures where
  voteSelect : Bool
  voteWrite : Bool
  fetch : Bool
  karmaWrite : Bool
deriving DecidableEq

/-- The happy path: no backend call fails. -/
def noFailures : Failures :=
  { voteSelect := false, voteWrite := false, fetch := false, karmaWrite := false }

/-- `.single()`: the returned `data` is the row when exactly one row
matches, and `null` otherwise. -/
def singleRow {α : Type} : List α → Option α
  | [x] => some x
  | _ => none

/-- The filter `.eq('user_id', user.id).eq('post_id', postId)` on `votes`. -/
def voteKey (uid postId : Nat) (v : DBVote) : Bool :=
  v.user_id == uid && v.post_id == postId

/-- Schema constraint `CHECK (vote_type IN (-1, 1))` on `votes`. -/
def voteCheckOk (voteType : Int) : Bool :=
  voteType == 1 || voteType == -1

/-- Insertion step of a stable-enough descending sort on `created_at`,
modelling the SQL `ORDER BY created_at DESC`. -/
def insertPostDesc (p : DBPost) : List DBPost → List DBPost
  | [] => [p]
  | q :: qs => if p.created_at > q.created_at then p :: q :: qs else q :: insertPostDesc p qs

/-- `ORDER BY created_at DESC` over the `posts` table. -/
def sortPostsDesc (l : List DBPost) : List DBPost :=
  l.foldr insertPostDesc []

/-- The embedded-profile part of the posts query: the row of `profiles`
referenced by `posts_author_id_fkey` (the foreign key guarantees it exists;
a missing row is modelled as an absent `total_karma`). -/
def joinProfile (db : DB) (authorId : Nat) : ClientProfile :=
  match db.profiles.find? (fun pr => pr.id == authorId) with
  | some pr => { id := pr.id, total_karma := pr.total_karma }
  | none => { id := authorId, total_karma := none }

/-- The `fetchPosts` SELECT: posts joined with their author's profile,
`ORDER BY created_at DESC`, `LIMIT 20`. -/
def fetchPostsQuery (db : DB) : List ClientPost :=
  ((sortPostsDesc db.posts).take 20).map (fun p =>
    { id := p.id, author_id := p.author_id, created_at := p.created_at,
      profiles := joinProfile db p.author_id })

/-- `fetchPosts`: on success replaces the `posts` state wholesale with the
query result; on failure (`if (error) throw error`) the `catch` logs and the
`posts` state is left as it was; `finally` clears `loading` either way. -/
def fetchPostsF (f : Failures) (st : AppState) : AppState :=
  if f.fetch then
    { st with errorLog := st.errorLog ++ ["Error fetching posts:"], loading := false }
  else
    { st with posts := fetchPostsQuery st.db, loading := false }

/-- The `UPDATE profiles SET total_karma = newKarma WHERE id = authorId`
call. Returns the resulting database and whether the backend reported an
error: `CHECK (total_karma >= 0)` rejects the write (changing no row) when
the new value is negative and some row actually matches; an update matching
no row succeeds vacuously. -/
def updateProfileKarma (db : DB) (authorId : Nat) (newKarma : Int) : DB × Bool :=
  if newKarma < 0 && db.profiles.any (fun pr => pr.id == authorId) then
    (db, true)
  else
    ({ db with profiles := db.profiles.map (fun pr =>
        if pr.id == authorId then { pr with total_karma := some newKarma } else pr) }, false)

/-- The karma write step followed by its error handling: a reported error
(`if (error) throw error`) lands in the `catch`, which only logs. -/
def applyKarmaWrite (st : AppState) (authorId : Nat) (newKarma : Int) : AppState :=
  match updateProfileKarma st.db authorId newKarma with
  | (_, true) => { st with errorLog := st.errorLog ++ ["Error updating karma:"] }
  | (db2, false) => { st with db := db2 }

/-- `updateUserKarma(postId, voteType)` (App.tsx): looks the post up in the
`posts` React state captured by the closure (`cachedPosts`); if absent it
returns with no effect. Otherwise it computes
`(post.profiles.total_karma || 0) + (voteType === 1 ? 10 : -5)` and writes
that value to the author's profile row; this call does `if (error) throw
error`, so a failed write reaches the `catch` and is logged. -/
def updateUserKarmaF (f : Failures) (cachedPosts : List ClientPost) (st : AppState)
    (postId : Nat) (voteType : Int) : AppState :=
  match cachedPosts.find? (fun p => p.id == postId) with
  | none => st
  | some post =>
    let karmaChange : Int := if voteType == 1 then 10 else -5
    let newKarma : Int := post.profiles.total_karma.getD 0 + karmaChange
    if f.karmaWrite then
      { st with errorLog := st.errorLog ++ ["Error updating karma:"] }
    else
      applyKarmaWrite st post.author_id newKarma

/-- `updateUserKarma` as called directly (cached posts = current state). -/
def updateUserKarma (st : AppState) (postId : Nat) (voteType : Int) : AppState :=
  updateUserKarmaF noFailures st.posts st postId voteType

/-- The insert/update/delete branch of `handleVote` on the `votes` table.
The three mutating calls discard the supabase result object, so their
failures (injected `voteWrite`, or a constraint violation) change nothing
and are not logged. A failed `.single()` lookup yields `data = null`, which
the code treats as "no existing vote". -/
def voteMutationDB (f : Failures) (db : DB) (uid postId : Nat) (voteType : Int) : DB :=
  let found := db.votes.filter (voteKey uid postId)
  let existingVote : Option DBVote := if f.voteSelect then none else singleRow found
  if f.voteWrite then db
  else
    match existingVote with
    | some v =>
      if v.vote_type == voteType then
        { db with votes := db.votes.filter (fun w => w.id != v.id) }
      else
        if voteCheckOk voteType then
          { db with votes := db.votes.map (fun w =>
              if w.id == v.id then { w with vote_type := voteType } else w) }
        else db
    | none =>
      if voteCheckOk voteType && !(db.votes.any (voteKey uid postId)) then
        { db with
          votes := db.votes ++
            [{ id := db.nextVoteId, user_id := uid, post_id := postId, vote_type := voteType }],
          nextVoteId := db.nextVoteId + 1 }
      else db

/-- The vote mutation as a state transformer: only the database changes. -/
def applyVoteMutation (f : Failures) (st : AppState) (uid postId : Nat)
    (voteType : Int) : AppState :=
  { st with db := voteMutationDB f st.db uid postId voteType }

/-- `handleVote(postId, voteType)`: when logged out it only opens the auth
modal. Otherwise it looks up the existing vote, mutates the `votes` table,
then fires `fetchPosts()` and `updateUserKarma(postId, voteType)`. The
`fetchPosts` SELECT is issued before the karma write, so it sees the
database after the vote mutation and before the karma update, and
`updateUserKarma` reads the `posts` list captured by the closure — the
pre-refresh cache `st.posts`. -/
def handleVoteF (f : Failures) (st : AppState) (postId : Nat) (voteType : Int) : AppState :=
  match st.user with
  | none => { st with showAuthModal := true }
  | some uid =>
    let st1 := applyVoteMutation f st uid postId voteType
    let st2 := fetchPostsF f st1
    updateUserKarmaF f st.posts st2 postId voteType

/-- `handleVote` on the happy path. -/
def handleVote (st : AppState) (postId : Nat) (voteType : Int) : AppState :=
  handleVoteF noFailures st postId voteType

/-- The filter `.eq('community_id', communityId).eq('user_id', user.id)` on
`community_members`. -/
def memberKey (communityId uid : Nat) (m : DBMember) : Bool :=
  m.community_id == communityId && m.user_id == uid

/-- Insertion step of a descending sort on `member_count`, modelling the SQL
`ORDER BY member_count DESC` of `fetchCommunities`. -/
def insertCommunityDesc (c : ClientCommunity) : List ClientCommunity → List ClientCommunity
  | [] => [c]
  | d :: ds => if c.member_count > d.member_count then c :: d :: ds else d :: insertCommunityDesc c ds

/-- The `fetchCommunities` SELECT: all communities, `ORDER BY member_count
DESC`. -/
def fetchCommunitiesQuery (db : DB) : List ClientCommunity :=
  (db.communities.map (fun c => { id := c.id, member_count := c.member_count })).foldr
    insertCommunityDesc []

/-- The `UPDATE communities SET member_count = newCount WHERE id = cid`
call. `CHECK (member_count >= 0)` rejects a negative write when a row
matches; the client discards the result object, so a rejected write simply
changes nothing. -/
def updateCommunityCount (db : DB) (cid : Nat) (newCount : Int) : DB :=
  if newCount < 0 && db.communities.any (fun c => c.id == cid) then db
  else
    { db with communities := db.communities.map (fun c =>
        if c.id == cid then { c with member_count := newCount } else c) }

/-- `joinCommunity(communityId)` (App.tsx): when logged out it only opens
the auth modal. Otherwise it looks up the caller's membership row; if one
exists it deletes it and — when the community is present in the cached
`communities` state — writes `Math.max(0, community.member_count - 1)` as
the new counter; if none exists it inserts a membership row (the
`UNIQUE(community_id, user_id)` constraint silently rejects a duplicate)
and — under the same cache condition — writes `community.member_count + 1`.
All mutating results are discarded, so no failure is logged on this
path. -/
def joinCommunityCore (st : AppState) (uid communityId : Nat) : AppState :=
  let found := st.db.members.filter (memberKey communityId uid)
  let existingMember := singleRow found
  match existingMember with
  | some m =>
    let db1 := { st.db with members := st.db.members.filter (fun w => w.id != m.id) }
    match st.communities.find? (fun c : ClientCommunity => c.id == communityId) with
    | some community =>
      { st with db := updateCommunityCount db1 communityId (max 0 (community.member_count - 1)) }
    | none => { st with db := db1 }
  | none =>
    let db1 :=
      if st.db.members.any (memberKey communityId uid) then st.db
      else
        { st.db with
          members := st.db.members ++
            [({ id := st.db.nextMemberId, community_id := communityId,
                user_id := uid } : DBMember)],
          nextMemberId := st.db.nextMemberId + 1 }
    match st.communities.find? (fun c : ClientCommunity => c.id == communityId) with
    | some community =>
      { st with db := updateCommunityCount db1 communityId (community.member_count + 1) }
    | none => { st with db := db1 }

/-- `joinCommunity(communityId)` (App.tsx): `joinCommunityCore` is the
membership branch, then `fetchCommunities()` replaces the cached list. -/
def joinCommunity (st : AppState) (communityId : Nat) : AppState :=
  match st.user with
  | none => { st with showAuthModal := true }
  | some uid =>
    let st1 := joinCommunityCore st uid communityId
    { st1 with communities := fetchCommunitiesQuery st1.db }

/-- The in-memory per-tab rate limiter of `utils/validation.ts`. The
`attempts` map is an association list; timestamps are `Date.now()`
milliseconds, passed explicitly as `now`. -/
structure RateLimiter where
  attempts : List (String × List Int)
  maxAttempts : Nat
  windowMs : Int
deriving DecidableEq

/-- `this.attempts.get(key) || []`. -/
def RateLimiter.getAttempts (rl : RateLimiter) (key : String) : List Int :=
  (rl.attempts.lookup key).getD []

/-- `Map.set`: replace the entry for `key` if present, else append it. -/
def setEntry (m : List (String × List Int)) (key : String) (val : List Int) :
    List (String × List Int) :=
  match m with
  | [] => [(key, val)]
  | (k, v) :: rest => if k == key then (key, val) :: rest else (k, v) :: setEntry rest key val

/-- `canAttempt(key)`: drops attempts outside the trailing window, stores
the pruned list back, and allows the attempt iff strictly fewer than
`maxAttempts` remain. Returns the Bool together with the mutated limiter. -/
def RateLimiter.canAttempt (rl : RateLimiter) (now : Int) (key : String) :
    Bool × RateLimiter :=
  let attempts := rl.getAttempts key
  let validAttempts := attempts.filter (fun time => now - time < rl.windowMs)
  (decide (validAttempts.length < rl.maxAttempts),
   { rl with attempts := setEntry rl.attempts key validAttempts })

/-- `recordAttempt(key)`: pushes the current timestamp. -/
def RateLimiter.recordAttempt (rl : RateLimiter) (now : Int) (key : String) : RateLimiter :=
  { rl with attempts := setEntry rl.attempts key (rl.getAttempts key ++ [now]) }

/-- `getRemainingTime(key)`: `0` while fewer than `maxAttempts` attempts are
recorded; otherwise `Math.max(0, windowMs - (now - Math.min(...attempts)))`.
(`Math.min` of an empty spread is `Infinity`, reachable only with
`maxAttempts = 0`; that unused corner is modelled by `getD 0`.) -/
def RateLimiter.getRemainingTime (rl : RateLimiter) (now : Int) (key : String) : Int :=
  let attempts := rl.getAttempts key
  if attempts.length < rl.maxAttempts then 0
  else
    let oldestAttempt := (attempts.min?).getD 0
    max 0 (rl.windowMs - (now - oldestAttempt))

/-- Result record of the validators in `utils/validation.ts`. -/
structure ValidationResult where
  isValid : Bool
  errors : List String
deriving DecidableEq

/-- Substring test on character lists (JS `String.prototype.includes` /
an unanchored regex literal alternative). -/
def hasSub (needle : List Char) : List Char → Bool
  | [] => needle.isEmpty
  | c :: rest => needle.isPrefixOf (c :: rest) || hasSub needle rest

/-- JS `String.prototype.split` with a single-character separator. -/
def splitChar (sep : Char) : List Char → List (List Char)
  | [] => [[]]
  | c :: rest =>
    let r := splitChar sep rest
    if c == sep then [] :: r
    else
      match r with
      | h :: t => (c :: h) :: t
      | [] => [[c]]

/-- JS `String.prototype.toLowerCase` (ASCII case mapping suffices for the
compared constants). -/
def lowerStr (s : String) : String :=
  String.mk (s.data.map Char.toLower)

/-- JS `String.prototype.trim`: strip leading and trailing whitespace. -/
def trimChars (cs : List Char) : List Char :=
  ((cs.dropWhile Char.isWhitespace).reverse.dropWhile Char.isWhitespace).reverse

/-- JS `String.prototype.trim` on strings. -/
def trimStr (s : String) : String :=
  String.mk (trimChars s.data)

/-- Character class `[a-zA-Z0-9._%+-]` (email local part). -/
def emailLocalChar (c : Char) : Bool :=
  c.isAlpha || c.isDigit || c == Char.ofNat 46 || c == Char.ofNat 95 ||
    c == Char.ofNat 37 || c == Char.ofNat 43 || c == Char.ofNat 45

/-- Character class `[a-zA-Z0-9.-]` (email domain part). -/
def emailDomainChar (c : Char) : Bool :=
  c.isAlpha || c.isDigit || c == Char.ofNat 46 || c == Char.ofNat 45

/-- Match of the domain side of the email regex,
`[a-zA-Z0-9.-]+\.[a-zA-Z]\x7b2,\x7d$`: the backtracking match succeeds
exactly when splitting at the last dot yields a nonempty all-domain-chars
prefix and an all-alphabetic suffix of length at least 2 (a split at an
earlier dot would put a dot inside the alphabetic suffix). -/
def domainTailTest (cs : List Char) : Bool :=
  let rts := cs.reverse
  let tldRev := rts.takeWhile (fun c => c != Char.ofNat 46)
  match rts.drop tldRev.length with
  | [] => false
  | _ :: domRev =>
    decide (2 ≤ tldRev.length) && tldRev.all Char.isAlpha &&
      !domRev.isEmpty && domRev.all emailDomainChar

/-- The email regex `^[a-zA-Z0-9._%+-]+@[a-zA-Z0-9.-]+\.[a-zA-Z]\x7b2,\x7d$`.
Neither character class contains `@`, so a match forces exactly one `@`,
i.e. `splitOn` yields exactly two parts. -/
def emailRegexTest (email : String) : Bool :=
  match splitChar (Char.ofNat 64) email.data with
  | [lp, dp] => !lp.isEmpty && lp.all emailLocalChar && domainTailTest dp
  | _ => false

/-- `validateEmail` (utils/validation.ts). `email.split('@')[1]` is
`undefined` without an `@` and possibly the empty string, both falsy, so the
domain-length check only fires on a nonempty second segment. -/
def validateEmail (email : String) : ValidationResult :=
  if email.data.isEmpty then { isValid := false, errors := ["Email is required"] }
  else
    let errors : List String := []
    let errors := if !emailRegexTest email then
      errors ++ ["Please enter a valid email address"] else errors
    let errors := if email.length > 254 then
      errors ++ ["Email address is too long"] else errors
    let errors :=
      match (splitChar (Char.ofNat 64) email.data).get? 1 with
      | some d => if !d.isEmpty && d.length > 253 then
          errors ++ ["Email domain is too long"] else errors
      | none => errors
    let errors := if hasSub [Char.ofNat 46, Char.ofNat 46] email.data ||
        email.data.head? == some (Char.ofNat 46) ||
        email.data.getLast? == some (Char.ofNat 46) then
      errors ++ ["Email contains invalid patterns"] else errors
    { isValid := errors.length == 0, errors := errors }

/-- The `commonPasswords` list. -/
def commonPasswords : List String :=
  ["password", "12345678", "qwerty", "abc123", "password123",
   "admin", "letmein", "welcome", "123456789", "password1"]

/-- The special-character class of `validatePassword`:
`[!@#$%^&*()_+\-=[\]\x7b\x7d;':"\\|,.<>/?]`. -/
def specialChars : List Char :=
  ['!', '@', '#', '$', '%', '^', '&', '*', '(', ')', '_', '+', '-', '=',
   '[', ']', Char.ofNat 123, Char.ofNat 125, ';', Char.ofNat 39, ':',
   Char.ofNat 34, Char.ofNat 92, '|', ',', '.', '<', '>', '/', '?']

/-- The alternatives of the sequential-characters regex
`123456|abcdef|qwerty|654321|fedcba|ytrewq`. -/
def sequentialPatterns : List String :=
  ["123456", "abcdef", "qwerty", "654321", "fedcba", "ytrewq"]

/-- `validatePassword` (utils/validation.ts). -/
def validatePassword (password : String) : ValidationResult :=
  if password.data.isEmpty then { isValid := false, errors := ["Password is required"] }
  else
    let errors : List String := []
    let errors := if password.length < 8 then
      errors ++ ["Password must be at least 8 characters long"] else errors
    let errors := if password.length > 128 then
      errors ++ ["Password must be less than 128 characters"] else errors
    let errors := if !password.data.any Char.isLower then
      errors ++ ["Password must contain at least one lowercase letter"] else errors
    let errors := if !password.data.any Char.isUpper then
      errors ++ ["Password must contain at least one uppercase letter"] else errors
    let errors := if !password.data.any Char.isDigit then
      errors ++ ["Password must contain at least one number"] else errors
    let errors := if !password.data.any (fun c => specialChars.contains c) then
      errors ++ ["Password must contain at least one special character"] else errors
    let errors := if commonPasswords.contains (lowerStr password) then
      errors ++ ["Password is too common, please choose a stronger password"] else errors
    let errors := if sequentialPatterns.any (fun p => hasSub p.data (lowerStr password).data) then
      errors ++ ["Password contains sequential characters"] else errors
    { isValid := errors.length == 0, errors := errors }

/-- The `reservedUsernames` list. -/
def reservedUsernames : List String :=
  ["admin", "root", "administrator", "moderator", "support", "help",
   "api", "www", "mail", "ftp", "blog", "news", "shop", "forum",
   "user", "users", "profile", "account", "settings", "login", "signup",
   "auth", "oauth", "security", "privacy", "terms", "about", "contact",
   "null", "undefined", "system", "bot", "guest", "anonymous", "test"]

/-- `validateUsername` (utils/validation.ts). The format regex
`^[a-zA-Z0-9_]+$` is nonempty-and-all-in-class; the leading-character regex
`^[a-zA-Z0-9]` tests the first character. -/
def validateUsername (username : String) : ValidationResult :=
  if username.data.isEmpty then { isValid := false, errors := ["Username is required"] }
  else
    let errors : List String := []
    let errors := if username.length < 3 then
      errors ++ ["Username must be at least 3 characters long"] else errors
    let errors := if username.length > 30 then
      errors ++ ["Username must be less than 30 characters long"] else errors
    let errors := if !(!username.data.isEmpty &&
        username.data.all (fun c => c.isAlphanum || c == Char.ofNat 95)) then
      errors ++ ["Username can only contain letters, numbers, and underscores"] else errors
    let errors := if !(match username.data with
        | c :: _ => c.isAlphanum
        | [] => false) then
      errors ++ ["Username must start with a letter or number"] else errors
    let errors := if reservedUsernames.contains (lowerStr username) then
      errors ++ ["This username is reserved and cannot be used"] else errors
    { isValid := errors.length == 0, errors := errors }

/-- The invalid-character class `[<>"'&]` of `validateDisplayName`. -/
def displayNameBadChars : List Char :=
  ['<', '>', Char.ofNat 34, Char.ofNat 39, '&']

/-- `validateDisplayName` (utils/validation.ts). The `length < 1` check is
kept even though it is unreachable after the emptiness early return. -/
def validateDisplayName (displayName : String) : ValidationResult :=
  if displayName.data.isEmpty then
    { isValid := false, errors := ["Display name is required"] }
  else
    let errors : List String := []
    let errors := if displayName.length < 1 then
      errors ++ ["Display name cannot be empty"] else errors
    let errors := if displayName.length > 100 then
      errors ++ ["Display name must be less than 100 characters long"] else errors
    let errors := if (trimChars displayName.data).length == 0 then
      errors ++ ["Display name cannot be only whitespace"] else errors
    let errors := if displayName.data.any (fun c => displayNameBadChars.contains c) then
      errors ++ ["Display name contains invalid characters"] else errors
    { isValid := errors.length == 0, errors := errors }

/-- The argument record of `validateSignupData`. -/
structure SignupData where
  email : String
  password : String
  username : String
  displayName : String
deriving DecidableEq

/-- `validateSignupData` (utils/validation.ts): pushes the four validators'
error lists in order and is valid iff the concatenation is empty. -/
def validateSignupData (data : SignupData) : ValidationResult :=
  let allErrors :=
    (validateEmail data.email).errors ++ (validatePassword data.password).errors ++
      (validateUsername data.username).errors ++ (validateDisplayName data.displayName).errors
  { isValid := allErrors.length == 0, errors := allErrors }

/-- Outcome of the modelled prefix of `signUp`. -/
inductive SignUpResult where
  | rateLimited (minutes : Int)
  | validationFailed (msg : String)
  | proceeded
deriving DecidableEq

/-- First phase of `signUp` (App.tsx): the `signupRateLimiter` gate, then
`validateSignupData` on the trimmed inputs; a validation failure returns
`validation.errors.join('. ')` before any backend call. Everything from
`recordAttempt` on (the username lookup and `supabase.auth.signUp`) contacts
the backend and is abstracted as `proceeded`; the returned Bool records
whether any backend call was issued. The cooldown minutes are
`Math.ceil(ms / 1000 / 60)` on the nonnegative remaining time, and the
limiter's internal pruning side effect is not needed by the result. -/
def signUp (rl : RateLimiter) (now : Int) (email password username displayName : String) :
    SignUpResult × Bool :=
  if !(rl.canAttempt now "client-signup").1 then
    (.rateLimited ((rl.getRemainingTime now "client-signup" + 59999) / 60000), false)
  else
    let validation := validateSignupData
      { email := trimStr email, password := password,
        username := trimStr username, displayName := trimStr displayName }
    if !validation.isValid then
      (.validationFailed (String.intercalate ". " validation.errors), false)
    else
      (.proceeded, true)


/-- Concrete author profile used by the witness states. -/
def profileW : DBProfile :=
  { id := 2, total_karma := some 0 }

/-- Concrete backend database used by the witness states: one post (id 10)
by author 2, no votes, no communities. -/
def dbW : DB :=
  { votes := [], nextVoteId := 0, profiles := [profileW],
    posts := [{ id := 10, author_id := 2, created_at := 5 }],
    members := [], nextMemberId := 0, communities := [] }

/-- The cached copy of post 10 as `fetchPosts` would deliver it. -/
def postW : ClientPost :=
  { id := 10, author_id := 2, created_at := 5,
    profiles := { id := 2, total_karma := some 0 } }

/-- Concrete application state: user 1 logged in, post 10 cached. -/
def stW : AppState :=
  { user := some 1, db := dbW, posts := [postW], communities := [],
    showAuthModal := false, loading := false, errorLog := [] }

/-- Concrete state for the community flows: user 1 is a member of community
5, whose cached and stored `member_count` is already 0. -/
def stC : AppState :=
  { user := some 1,
    db := { votes := [], nextVoteId := 0, profiles := [], posts := [],
            members := [{ id := 0, community_id := 5, user_id := 1 }],
            nextMemberId := 1, communities := [{ id := 5, member_count := 0 }] },
    posts := [], communities := [{ id := 5, member_count := 0 }],
    showAuthModal := false, loading := false, errorLog := [] }

/-- The row the insert branch of `handleVote` sends to the backend. -/
def newVoteRow (db : DB) (uid postId : Nat) (voteType : Int) : DBVote :=
  { id := db.nextVoteId, user_id := uid, post_id := postId, vote_type := voteType }

/-! Frame lemmas: which parts of the state each step leaves untouched. -/

theorem updateProfileKarma_frame (db : DB) (authorId : Nat) (newKarma : Int) :
    (updateProfileKarma db authorId newKarma).1.votes = db.votes ∧
    (updateProfileKarma db authorId newKarma).1.nextVoteId = db.nextVoteId ∧
    (updateProfileKarma db authorId newKarma).1.posts = db.posts ∧
    (updateProfileKarma db authorId newKarma).1.members = db.members ∧
    (updateProfileKarma db authorId newKarma).1.nextMemberId = db.nextMemberId ∧
    (updateProfileKarma db authorId newKarma).1.communities = db.communities := by
  unfold updateProfileKarma
  split <;> exact ⟨rfl, rfl, rfl, rfl, rfl, rfl⟩

theorem applyKarmaWrite_frame (st : AppState) (authorId : Nat) (newKarma : Int) :
    (applyKarmaWrite st authorId newKarma).user = st.user ∧
    (applyKarmaWrite st authorId newKarma).posts = st.posts ∧
    (applyKarmaWrite st authorId newKarma).communities = st.communities ∧
    (applyKarmaWrite st authorId newKarma).showAuthModal = st.showAuthModal ∧
    (applyKarmaWrite st authorId newKarma).loading = st.loading ∧
    (applyKarmaWrite st authorId newKarma).db.votes = st.db.votes ∧
    (applyKarmaWrite st authorId newKarma).db.nextVoteId = st.db.nextVoteId ∧
    (applyKarmaWrite st authorId newKarma).db.posts = st.db.posts ∧
    (applyKarmaWrite st authorId newKarma).db.members = st.db.members ∧
    (applyKarmaWrite st authorId newKarma).db.nextMemberId = st.db.nextMemberId ∧
    (applyKarmaWrite st authorId newKarma).db.communities = st.db.communities := by
  have hf := updateProfileKarma_frame st.db authorId newKarma
  unfold applyKarmaWrite
  rcases hup : updateProfileKarma st.db authorId newKarma with ⟨db2, errb⟩
  rw [hup] at hf
  cases errb
  · exact ⟨rfl, rfl, rfl, rfl, rfl, hf.1, hf.2.1, hf.2.2.1, hf.2.2.2.1, hf.2.2.2.2.1,
      hf.2.2.2.2.2⟩
  · exact ⟨rfl, rfl, rfl, rfl, rfl, rfl, rfl, rfl, rfl, rfl, rfl⟩

theorem updateUserKarmaF_frame (f : Failures) (cached : List ClientPost) (st : AppState)
    (postId : Nat) (voteType : Int) :
    (updateUserKarmaF f cached st postId voteType).user = st.user ∧
    (updateUserKarmaF f cached st postId voteType).posts = st.posts ∧
    (updateUserKarmaF f cached st postId voteType).communities = st.communities ∧
    (updateUserKarmaF f cached st postId voteType).showAuthModal = st.showAuthModal ∧
    (updateUserKarmaF f cached st postId voteType).loading = st.loading ∧
    (updateUserKarmaF f cached st postId voteType).db.votes = st.db.votes ∧
    (updateUserKarmaF f cached st postId voteType).db.nextVoteId = st.db.nextVoteId ∧
    (updateUserKarmaF f cached st postId voteType).db.posts = st.db.posts ∧
    (updateUserKarmaF f cached st postId voteType).db.members = st.db.members ∧
    (updateUserKarmaF f cached st postId voteType).db.nextMemberId = st.db.nextMemberId ∧
    (updateUserKarmaF f cached st postId voteType).db.communities = st.db.communities := by
  unfold updateUserKarmaF
  cases hfind : cached.find? (fun p => p.id == postId) with
  | none => exact ⟨rfl, rfl, rfl, rfl, rfl, rfl, rfl, rfl, rfl, rfl, rfl⟩
  | some post =>
    by_cases hk : f.karmaWrite = true
    · simp [hk]
    · rw [Bool.not_eq_true] at hk
      simp only [hk, Bool.false_eq_true, if_false]
      exact applyKarmaWrite_frame st post.author_id _

theorem fetchPostsF_frame (f : Failures) (st : AppState) :
    (fetchPostsF f st).user = st.user ∧
    (fetchPostsF f st).db = st.db ∧
    (fetchPostsF f st).communities = st.communities ∧
    (fetchPostsF f st).showAuthModal = st.showAuthModal := by
  unfold fetchPostsF
  split <;> exact ⟨rfl, rfl, rfl, rfl⟩

theorem voteMutationDB_frame (f : Failures) (db : DB) (uid postId : Nat)
    (voteType : Int) :
    (voteMutationDB f db uid postId voteType).profiles = db.profiles ∧
    (voteMutationDB f db uid postId voteType).posts = db.posts ∧
    (voteMutationDB f db uid postId voteType).members = db.members ∧
    (voteMutationDB f db uid postId voteType).communities = db.communities := by
  unfold voteMutationDB
  dsimp only
  repeat' split
  all_goals exact ⟨rfl, rfl, rfl, rfl⟩

theorem applyVoteMutation_frame (f : Failures) (st : AppState) (uid postId : Nat)
    (voteType : Int) :
    (applyVoteMutation f st uid postId voteType).user = st.user ∧
    (applyVoteMutation f st uid postId voteType).posts = st.posts ∧
    (applyVoteMutation f st uid postId voteType).communities = st.communities ∧
    (applyVoteMutation f st uid postId voteType).showAuthModal = st.showAuthModal ∧
    (applyVoteMutation f st uid postId voteType).loading = st.loading ∧
    (applyVoteMutation f st uid postId voteType).db.profiles = st.db.profiles ∧
    (applyVoteMutation f st uid postId voteType).db.posts = st.db.posts ∧
    (applyVoteMutation f st uid postId voteType).db.members = st.db.members ∧
    (applyVoteMutation f st uid postId voteType).db.communities = st.db.communities := by
  have h := voteMutationDB_frame f st.db uid postId voteType
  exact ⟨rfl, rfl, rfl, rfl, rfl, h.1, h.2.1, h.2.2.1, h.2.2.2⟩

/-- With a logged-in user, `handleVote` is the vote mutation followed by the
posts refresh followed by the karma update on the captured cache. -/
theorem handleVoteF_eq (f : Failures) (st : AppState) (uid postId : Nat) (voteType : Int)
    (hu : st.user = some uid) :
    handleVoteF f st postId voteType =
      updateUserKarmaF f st.posts
        (fetchPostsF f (applyVoteMutation f st uid postId voteType)) postId voteType := by
  unfold handleVoteF
  rw [hu]

/-- The votes table after `handleVote` is exactly the votes table after the
vote mutation step. -/
theorem handleVote_db_votes (f : Failures) (st : AppState) (uid postId : Nat) (voteType : Int)
    (hu : st.user = some uid) :
    (handleVoteF f st postId voteType).db.votes =
      (applyVoteMutation f st uid postId voteType).db.votes := by
  rw [handleVoteF_eq f st uid postId voteType hu]
  rw [(updateUserKarmaF_frame _ _ _ _ _).2.2.2.2.2.1]
  rw [(fetchPostsF_frame _ _).2.1]

/-! Behaviour of the vote mutation step in its three branches. -/

theorem applyVoteMutation_insert (st : AppState) (uid postId : Nat) (voteType : Int)
    (hvt : voteCheckOk voteType = true)
    (hS : st.db.votes.filter (voteKey uid postId) = []) :
    (applyVoteMutation noFailures st uid postId voteType).db.votes =
      st.db.votes ++
        [{ id := st.db.nextVoteId, user_id := uid, post_id := postId,
           vote_type := voteType }] := by
  have hany : st.db.votes.any (voteKey uid postId) = false := by
    rw [List.any_eq_false]
    exact fun x hx => List.filter_eq_nil_iff.mp hS x hx
  unfold applyVoteMutation voteMutationDB
  simp [noFailures, hS, singleRow, hvt, hany]

theorem applyVoteMutation_delete (st : AppState) (uid postId : Nat) (voteType : Int)
    (v : DBVote) (hS : st.db.votes.filter (voteKey uid postId) = [v])
    (hsame : v.vote_type = voteType) :
    (applyVoteMutation noFailures st uid postId voteType).db.votes =
      st.db.votes.filter (fun w => w.id != v.id) := by
  unfold applyVoteMutation voteMutationDB
  simp [noFailures, hS, singleRow, hsame]

theorem applyVoteMutation_update (st : AppState) (uid postId : Nat) (voteType : Int)
    (v : DBVote) (hvt : voteCheckOk voteType = true)
    (hS : st.db.votes.filter (voteKey uid postId) = [v])
    (hdiff : v.vote_type ≠ voteType) :
    (applyVoteMutation noFailures st uid postId voteType).db.votes =
      st.db.votes.map (fun w =>
        if w.id == v.id then { w with vote_type := voteType } else w) := by
  have hne : (v.vote_type == voteType) = false := by
    simp [hdiff]
  unfold applyVoteMutation voteMutationDB
  simp [noFailures, hS, singleRow, hne, hvt]

/-- C1: for every `handleVote(userId, postId, voteType)` with
`voteType ∈ {+1, -1}` by a logged-in user: with no existing vote row for
`(userId, postId)`, a new row with that `voteType` is appended; with an
existing row of the same `voteType`, that row is deleted (and no row for
the pair remains); with an existing row of the opposite `voteType`, the row
is updated in place to the new `voteType` — the table keeps its length (no
second row) and the row for the pair is exactly the updated one. -/
theorem handleVote_toggle_spec (st : AppState) (uid postId : Nat) (voteType : Int)
    (hu : st.user = some uid) (hvt : voteType = 1 ∨ voteType = -1) :
    ((st.db.votes.filter (voteKey uid postId) = []) →
      (handleVote st postId voteType).db.votes =
        st.db.votes ++
          [{ id := st.db.nextVoteId, user_id := uid, post_id := postId,
             vote_type := voteType }])
  ∧ (∀ v : DBVote, st.db.votes.filter (voteKey uid postId) = [v] →
      v.vote_type = voteType →
      (handleVote st postId voteType).db.votes =
        st.db.votes.filter (fun w => w.id != v.id) ∧
      (handleVote st postId voteType).db.votes.filter (voteKey uid postId) = [])
  ∧ (∀ v : DBVote, st.db.votes.filter (voteKey uid postId) = [v] →
      v.vote_type ≠ voteType →
      (handleVote st postId voteType).db.votes =
        st.db.votes.map (fun w =>
          if w.id == v.id then { w with vote_type := voteType } else w) ∧
      (handleVote st postId voteType).db.votes.length = st.db.votes.length ∧
      (handleVote st postId voteType).db.votes.filter (voteKey uid postId) =
        [{ v with vote_type := voteType }]) := by
  have hck : voteCheckOk voteType = true := by
    rcases hvt with h | h <;> simp [voteCheckOk, h]
  have hv := handleVote_db_votes noFailures st uid postId voteType hu
  refine ⟨?_, ?_, ?_⟩
  · intro hS
    rw [show handleVote st postId voteType = handleVoteF noFailures st postId voteType from rfl,
      hv, applyVoteMutation_insert st uid postId voteType hck hS]
  · intro v hS hsame
    have hdel :
        (handleVote st postId voteType).db.votes =
          st.db.votes.filter (fun w => w.id != v.id) := by
      rw [show handleVote st postId voteType = handleVoteF noFailures st postId voteType from rfl,
        hv, applyVoteMutation_delete st uid postId voteType v hS hsame]
    refine ⟨hdel, ?_⟩
    rw [hdel, List.filter_filter]
    have hcomm :
        st.db.votes.filter (fun a => voteKey uid postId a && (a.id != v.id)) =
          st.db.votes.filter (fun a => (a.id != v.id) && voteKey uid postId a) :=
      List.filter_congr (fun x _ => Bool.and_comm _ _)
    rw [hcomm, ← List.filter_filter, hS]
    simp
  · intro v hS hdiff
    have hupd :
        (handleVote st postId voteType).db.votes =
          st.db.votes.map (fun w =>
            if w.id == v.id then { w with vote_type := voteType } else w) := by
      rw [show handleVote st postId voteType = handleVoteF noFailures st postId voteType from rfl,
        hv, applyVoteMutation_update st uid postId voteType v hck hS hdiff]
    refine ⟨hupd, ?_, ?_⟩
    · rw [hupd, List.length_map]
    · rw [hupd, List.filter_map]
      have hkey :
          st.db.votes.filter
              ((voteKey uid postId) ∘ (fun w =>
                if w.id == v.id then { w with vote_type := voteType } else w)) =
            st.db.votes.filter (voteKey uid postId) := by
        refine List.filter_congr (fun x _ => ?_)
        by_cases hx : (x.id == v.id) = true <;> simp [voteKey, Function.comp, hx]
      rw [hkey, hS]
      simp

/-- C1 witness: in the concrete state `stW` (no prior vote), the insert
branch appends exactly the new up-vote row. -/
theorem handleVote_toggle_spec_witness :
    (handleVote stW 10 1).db.votes =
      [{ id := 0, user_id := 1, post_id := 10, vote_type := 1 }] := by
  have h := (handleVote_toggle_spec stW 1 10 1 (by decide) (Or.inl rfl)).1 (by decide)
  rw [h]
  decide

theorem fetchPostsF_posts (f : Failures) (st : AppState) (hf : f.fetch = false) :
    (fetchPostsF f st).posts = fetchPostsQuery st.db := by
  unfold fetchPostsF
  simp [hf]

theorem handleVoteF_posts_eq (f : Failures) (st : AppState) (uid postId : Nat)
    (voteType : Int) (hu : st.user = some uid) (hf : f.fetch = false) :
    (handleVoteF f st postId voteType).posts =
      fetchPostsQuery (voteMutationDB f st.db uid postId voteType) := by
  rw [handleVoteF_eq f st uid postId voteType hu]
  rw [(updateUserKarmaF_frame _ _ _ _ _).2.1]
  rw [fetchPostsF_posts f _ hf]
  rfl

/-- C5: after every vote mutation by a logged-in user the client re-issues
the full latest-posts query — posts ordered by `created_at` descending,
limited to the first 20, joined with author profiles — over the
post-mutation database, and replaces the `posts` state wholesale with the
query result; the resulting `posts` state is independent of the previously
cached posts (no incremental or optimistic local update of vote counts). -/
theorem handleVote_refreshes_posts (st : AppState) (uid postId : Nat) (voteType : Int)
    (hu : st.user = some uid) :
    (handleVote st postId voteType).posts =
      fetchPostsQuery (voteMutationDB noFailures st.db uid postId voteType) ∧
    (handleVote st postId voteType).posts =
      ((sortPostsDesc (voteMutationDB noFailures st.db uid postId voteType).posts).take 20).map
        (fun p =>
          { id := p.id, author_id := p.author_id, created_at := p.created_at,
            profiles := joinProfile (voteMutationDB noFailures st.db uid postId voteType)
              p.author_id }) ∧
    ∀ cache : List ClientPost,
      (handleVote { st with posts := cache } postId voteType).posts =
        (handleVote st postId voteType).posts := by
  have h1 := handleVoteF_posts_eq noFailures st uid postId voteType hu rfl
  refine ⟨h1, ?_, ?_⟩
  · rw [show handleVote st postId voteType =
      handleVoteF noFailures st postId voteType from rfl, h1]
    rfl
  · intro cache
    have h2 := handleVoteF_posts_eq noFailures { st with posts := cache } uid postId voteType
      hu rfl
    rw [show handleVote { st with posts := cache } postId voteType =
      handleVoteF noFailures { st with posts := cache } postId voteType from rfl, h2]
    rw [show handleVote st postId voteType =
      handleVoteF noFailures st postId voteType from rfl, h1]

/-- C5 witness: in `stW`, voting up on post 10 leaves the cache holding
exactly the refreshed query result, which is the single post. -/
theorem handleVote_refreshes_posts_witness :
    (handleVote stW 10 1).posts =
      fetchPostsQuery (voteMutationDB noFailures stW.db 1 10 1) ∧
    (handleVote stW 10 1).posts = [postW] :=
  ⟨(handleVote_refreshes_posts stW 1 10 1 (by decide)).1, by decide⟩

/-! Behaviour of the karma adjuster. -/

theorem updateUserKarma_found (st : AppState) (postId : Nat) (voteType : Int)
    (post : ClientPost)
    (hfind : st.posts.find? (fun p => p.id == postId) = some post) :
    updateUserKarma st postId voteType =
      applyKarmaWrite st post.author_id
        (post.profiles.total_karma.getD 0 + (if voteType == 1 then 10 else -5)) := by
  unfold updateUserKarma updateUserKarmaF
  rw [hfind]
  rfl

theorem updateUserKarma_notfound (st : AppState) (postId : Nat) (voteType : Int)
    (hfind : st.posts.find? (fun p => p.id == postId) = none) :
    updateUserKarma st postId voteType = st := by
  unfold updateUserKarma updateUserKarmaF
  rw [hfind]

theorem applyKarmaWrite_ok (st : AppState) (a : Nat) (w : Int) (hw : 0 ≤ w) :
    applyKarmaWrite st a w =
      { st with db := { st.db with profiles := st.db.profiles.map (fun pr =>
          if pr.id == a then { pr with total_karma := some w } else pr) } } := by
  have hd : decide (w < 0) = false := decide_eq_false (not_lt.mpr hw)
  unfold applyKarmaWrite updateProfileKarma
  simp [hd]

theorem applyKarmaWrite_reject (st : AppState) (a : Nat) (w : Int) (hw : w < 0)
    (hany : st.db.profiles.any (fun pr => pr.id == a) = true) :
    applyKarmaWrite st a w =
      { st with errorLog := st.errorLog ++ ["Error updating karma:"] } := by
  have hd : decide (w < 0) = true := decide_eq_true hw
  unfold applyKarmaWrite updateProfileKarma
  simp [hd, hany]

/-- C2: after every vote mutation `handleVote` hands off to the karma
adjuster (third conjunct); the adjuster takes the author's current
`total_karma` as known to the client (`post.profiles.total_karma || 0`),
adds `voteType === 1 ? 10 : -5`, and writes the sum back with no client-side
floor or ceiling: a non-negative sum replaces the author's stored karma
outright, while a negative sum (e.g. a downvote when the current value is
below 5) is still attempted, rejected only by the database check
`total_karma >= 0`, and surfaces only as a logged error. -/
theorem updateUserKarma_delta_spec (st : AppState) (postId : Nat) (voteType : Int)
    (post : ClientPost)
    (hfind : st.posts.find? (fun p => p.id == postId) = some post) :
    (0 ≤ post.profiles.total_karma.getD 0 + (if voteType == 1 then 10 else -5) →
      (updateUserKarma st postId voteType).db.profiles =
        st.db.profiles.map (fun pr =>
          if pr.id == post.author_id then
            { pr with
              total_karma := some (post.profiles.total_karma.getD 0 +
                (if voteType == 1 then 10 else -5)) }
          else pr) ∧
      (updateUserKarma st postId voteType).errorLog = st.errorLog)
  ∧ (post.profiles.total_karma.getD 0 + (if voteType == 1 then 10 else -5) < 0 →
      st.db.profiles.any (fun pr => pr.id == post.author_id) = true →
      (updateUserKarma st postId voteType).db.profiles = st.db.profiles ∧
      (updateUserKarma st postId voteType).errorLog =
        st.errorLog ++ ["Error updating karma:"])
  ∧ (∀ uid, st.user = some uid →
      handleVoteF noFailures st postId voteType =
        updateUserKarmaF noFailures st.posts
          (fetchPostsF noFailures (applyVoteMutation noFailures st uid postId voteType))
          postId voteType) := by
  have key := updateUserKarma_found st postId voteType post hfind
  refine ⟨?_, ?_, ?_⟩
  · intro hw
    rw [key, applyKarmaWrite_ok st post.author_id _ hw]
    exact ⟨rfl, rfl⟩
  · intro hw hany
    rw [key, applyKarmaWrite_reject st post.author_id _ hw hany]
    exact ⟨rfl, rfl⟩
  · intro uid huid
    exact handleVoteF_eq noFailures st uid postId voteType huid

/-- C2 witness: in `stW` the cached karma is 0, so the up-vote writes 10 and
logs nothing. -/
theorem updateUserKarma_delta_spec_witness :
    (updateUserKarma stW 10 1).db.profiles = [{ id := 2, total_karma := some 10 }] ∧
    (updateUserKarma stW 10 1).errorLog = [] := by
  have h := (updateUserKarma_delta_spec stW 10 1 postW (by decide)).1 (by decide)
  refine ⟨?_, ?_⟩
  · rw [h.1]
    decide
  · rw [h.2]
    decide

/-- C10: `updateUserKarma` reads the author's karma from the client's cached
posts list, not from a fresh backend read: for any contents `P` of the
backend `profiles` table, the value written is the cached
`post.profiles.total_karma` (defaulting to 0) plus the delta. For a `postId`
absent from the cached posts it returns the state entirely unchanged — no
profile write, no logged error. -/
theorem updateUserKarma_cache_read (st : AppState) (postId : Nat) (voteType : Int) :
    (st.posts.find? (fun p => p.id == postId) = none →
      updateUserKarma st postId voteType = st)
  ∧ (∀ post, st.posts.find? (fun p => p.id == postId) = some post →
      ∀ P : List DBProfile,
        0 ≤ post.profiles.total_karma.getD 0 + (if voteType == 1 then 10 else -5) →
        (updateUserKarma { st with db := { st.db with profiles := P } }
            postId voteType).db.profiles =
          P.map (fun pr =>
            if pr.id == post.author_id then
              { pr with
                total_karma := some (post.profiles.total_karma.getD 0 +
                  (if voteType == 1 then 10 else -5)) }
            else pr)) := by
  refine ⟨fun hnone => updateUserKarma_notfound st postId voteType hnone, ?_⟩
  intro post hfind P hw
  have hfind2 : ({ st with db := { st.db with profiles := P } } : AppState).posts.find?
      (fun p => p.id == postId) = some post := hfind
  rw [updateUserKarma_found _ postId voteType post hfind2,
    applyKarmaWrite_ok _ post.author_id _ hw]

/-- C10 witness: with post 10 dropped from the cache nothing changes at all;
with the backend reporting karma 77 but the cache still holding 0, the
write is 0 + 10 = 10 — the backend value is ignored. -/
theorem updateUserKarma_cache_read_witness :
    updateUserKarma { stW with posts := [] } 10 1 = { stW with posts := [] } ∧
    (updateUserKarma
        { stW with db := { stW.db with profiles := [{ id := 2, total_karma := some 77 }] } }
        10 1).db.profiles = [{ id := 2, total_karma := some 10 }] := by
  constructor
  · exact (updateUserKarma_cache_read { stW with posts := [] } 10 1).1 (by decide)
  · have h := (updateUserKarma_cache_read stW 10 1).2 postW (by decide)
      [{ id := 2, total_karma := some 77 }] (by decide)
    rw [h]
    decide

/-! Helper lemmas for the double-up-vote sequence. -/

theorem handleVoteF_user (f : Failures) (st : AppState) (postId : Nat) (voteType : Int) :
    (handleVoteF f st postId voteType).user = st.user := by
  unfold handleVoteF
  cases hu : st.user with
  | none => rfl
  | some uid =>
    rw [(updateUserKarmaF_frame _ _ _ _ _).1, (fetchPostsF_frame _ _).1]
    exact hu

theorem fetchPostsQuery_congr (db1 db2 : DB) (hp : db1.posts = db2.posts)
    (hpr : db1.profiles = db2.profiles) : fetchPostsQuery db1 = fetchPostsQuery db2 := by
  unfold fetchPostsQuery joinProfile
  simp only [hp, hpr]

theorem fetchPostsQuery_profiles (db : DB) (q : ClientPost)
    (hq : q ∈ fetchPostsQuery db) : q.profiles = joinProfile db q.author_id := by
  unfold fetchPostsQuery at hq
  rcases List.mem_map.mp hq with ⟨p, _, rfl⟩
  rfl

theorem find?_profiles_map (P : List DBProfile) (a : Nat) (v : Option Int) :
    (P.map (fun pr => if pr.id == a then { pr with total_karma := v } else pr)).find?
        (fun pr => pr.id == a) =
      (P.find? (fun pr => pr.id == a)).map
        (fun pr => if pr.id == a then { pr with total_karma := v } else pr) := by
  rw [List.find?_map]
  have hcomp :
      ((fun pr : DBProfile => pr.id == a) ∘
          (fun pr => if pr.id == a then { pr with total_karma := v } else pr)) =
        fun pr : DBProfile => pr.id == a := by
    funext pr
    by_cases h : (pr.id == a) = true <;> simp [Function.comp, h]
  rw [hcomp]

theorem updateUserKarmaF_found_general (f : Failures) (cached : List ClientPost)
    (st : AppState) (postId : Nat) (voteType : Int) (post : ClientPost)
    (hf : f.karmaWrite = false)
    (hfind : cached.find? (fun p => p.id == postId) = some post) :
    updateUserKarmaF f cached st postId voteType =
      applyKarmaWrite st post.author_id
        (post.profiles.total_karma.getD 0 + (if voteType == 1 then 10 else -5)) := by
  unfold updateUserKarmaF
  rw [hfind]
  simp [hf]

/-- C3: starting from a state with no vote row for `(uid, postId)`, the
sequence `handleVote(postId, +1)` then `handleVote(postId, +1)` (up-vote,
then toggle-off) restores the votes table exactly — in particular no row for
the pair remains — but the post author's `total_karma` is not restored to
its pre-sequence value: both calls fire a `+10` karma write (the toggle-off
call too), and the author's profile ends at the cached value plus 10, which
differs from every possible starting value. Hypotheses: `uid` is logged in;
stored vote ids are below the backend's next fresh id; no vote row for the
pair exists; post `postId` is cached with author `a` and non-negative cached
karma; the refreshed first page still contains `postId` with author `a`;
the author has a profile row whose karma is absent or non-negative. -/
theorem upvote_toggle_karma_not_restored (st : AppState) (uid postId a : Nat)
    (cp q : ClientPost) (pr : DBProfile)
    (hu : st.user = some uid)
    (hfresh : ∀ v ∈ st.db.votes, v.id < st.db.nextVoteId)
    (hS : st.db.votes.filter (voteKey uid postId) = [])
    (hcp : st.posts.find? (fun p => p.id == postId) = some cp)
    (hca : cp.author_id = a)
    (hcpk : 0 ≤ cp.profiles.total_karma.getD 0)
    (hq : (fetchPostsQuery st.db).find? (fun p => p.id == postId) = some q)
    (hqa : q.author_id = a)
    (hpr : st.db.profiles.find? (fun r => r.id == a) = some pr)
    (hprk : 0 ≤ pr.total_karma.getD 0) :
    (handleVote (handleVote st postId 1) postId 1).db.votes = st.db.votes ∧
    (handleVote (handleVote st postId 1) postId 1).db.votes.filter
      (voteKey uid postId) = [] ∧
    (handleVote (handleVote st postId 1) postId 1).db.profiles.find?
        (fun r => r.id == a) =
      some { pr with total_karma := some (pr.total_karma.getD 0 + 10) } ∧
    some (pr.total_karma.getD 0 + 10) ≠ pr.total_karma := by
  have hck : voteCheckOk 1 = true := by decide
  have h110 : (if (1:Int) == 1 then (10:Int) else -5) = 10 := rfl
  -- the first call, decomposed
  have h1eq : handleVote st postId 1 =
      updateUserKarmaF noFailures st.posts
        (fetchPostsF noFailures (applyVoteMutation noFailures st uid postId 1)) postId 1 :=
    handleVoteF_eq noFailures st uid postId 1 hu
  have hw1 : (0:Int) ≤ cp.profiles.total_karma.getD 0 +
      (if (1:Int) == 1 then 10 else -5) := by
    rw [h110]
    omega
  have hst1 : handleVote st postId 1 =
      { (fetchPostsF noFailures (applyVoteMutation noFailures st uid postId 1)) with
        db := { (fetchPostsF noFailures (applyVoteMutation noFailures st uid postId 1)).db with
          profiles := (fetchPostsF noFailures
              (applyVoteMutation noFailures st uid postId 1)).db.profiles.map (fun r =>
            if r.id == cp.author_id then
              { r with
                total_karma := some (cp.profiles.total_karma.getD 0 +
                  (if (1:Int) == 1 then 10 else -5)) }
            else r) } } := by
    rw [h1eq, updateUserKarmaF_found_general noFailures st.posts _ postId 1 cp rfl hcp,
      applyKarmaWrite_ok _ _ _ hw1]
  have hfdb : (fetchPostsF noFailures (applyVoteMutation noFailures st uid postId 1)).db =
      voteMutationDB noFailures st.db uid postId 1 :=
    (fetchPostsF_frame _ _).2.1
  have hs1votes : (fetchPostsF noFailures
      (applyVoteMutation noFailures st uid postId 1)).db.votes =
      st.db.votes ++ [newVoteRow st.db uid postId 1] := by
    rw [hfdb]
    exact applyVoteMutation_insert st uid postId 1 hck hS
  have hs1profiles : (fetchPostsF noFailures
      (applyVoteMutation noFailures st uid postId 1)).db.profiles = st.db.profiles := by
    rw [hfdb]
    exact (voteMutationDB_frame _ _ _ _ _).1
  have hs1posts : (fetchPostsF noFailures
      (applyVoteMutation noFailures st uid postId 1)).posts = fetchPostsQuery st.db := by
    rw [fetchPostsF_posts _ _ rfl]
    exact fetchPostsQuery_congr _ _ (voteMutationDB_frame _ _ _ _ _).2.1
      (voteMutationDB_frame _ _ _ _ _).1
  have hs1user : (fetchPostsF noFailures
      (applyVoteMutation noFailures st uid postId 1)).user = some uid := by
    rw [(fetchPostsF_frame _ _).1]
    exact hu
  -- the fields of the state after the first call
  have hst1votes : (handleVote st postId 1).db.votes =
      st.db.votes ++ [newVoteRow st.db uid postId 1] := by
    rw [hst1]
    exact hs1votes
  have hst1posts : (handleVote st postId 1).posts = fetchPostsQuery st.db := by
    rw [hst1]
    exact hs1posts
  have hst1user : (handleVote st postId 1).user = some uid := by
    rw [hst1]
    exact hs1user
  have hst1profiles : (handleVote st postId 1).db.profiles =
      st.db.profiles.map (fun r =>
        if r.id == a then
          { r with total_karma := some (cp.profiles.total_karma.getD 0 + 10) }
        else r) := by
    rw [hst1]
    show (fetchPostsF noFailures
        (applyVoteMutation noFailures st uid postId 1)).db.profiles.map _ = _
    rw [hs1profiles]
    simp only [hca, h110]
  -- the second call deletes the inserted row
  have hS2 : (handleVote st postId 1).db.votes.filter (voteKey uid postId) =
      [newVoteRow st.db uid postId 1] := by
    rw [hst1votes, List.filter_append, hS]
    simp [voteKey, newVoteRow]
  have hvotes2 : (handleVote (handleVote st postId 1) postId 1).db.votes =
      st.db.votes := by
    rw [show handleVote (handleVote st postId 1) postId 1 =
        handleVoteF noFailures (handleVote st postId 1) postId 1 from rfl,
      handleVote_db_votes noFailures _ uid postId 1 hst1user,
      applyVoteMutation_delete (handleVote st postId 1) uid postId 1
        (newVoteRow st.db uid postId 1) hS2 rfl,
      hst1votes, List.filter_append]
    have hkeep : st.db.votes.filter (fun w =>
        w.id != (newVoteRow st.db uid postId 1).id) = st.db.votes := by
      refine List.filter_eq_self.mpr (fun v hv => ?_)
      have := hfresh v hv
      simp only [newVoteRow, bne_iff_ne, ne_eq]
      omega
    rw [hkeep]
    simp
  refine ⟨hvotes2, ?_, ?_, ?_⟩
  · rw [hvotes2]
    exact hS
  · -- the karma written by the second call
    have hmem := List.mem_of_find?_eq_some hq
    have hqp : q.profiles = { id := pr.id, total_karma := pr.total_karma } := by
      rw [fetchPostsQuery_profiles st.db q hmem, hqa]
      unfold joinProfile
      rw [hpr]
    have hq1 : (handleVote st postId 1).posts.find? (fun p => p.id == postId) = some q := by
      rw [hst1posts]
      exact hq
    have hw2 : (0:Int) ≤ q.profiles.total_karma.getD 0 +
        (if (1:Int) == 1 then 10 else -5) := by
      rw [h110, hqp]
      dsimp only
      omega
    have h2eq : handleVote (handleVote st postId 1) postId 1 =
        applyKarmaWrite
          (fetchPostsF noFailures
            (applyVoteMutation noFailures (handleVote st postId 1) uid postId 1))
          q.author_id
          (q.profiles.total_karma.getD 0 + (if (1:Int) == 1 then 10 else -5)) := by
      rw [show handleVote (handleVote st postId 1) postId 1 =
          handleVoteF noFailures (handleVote st postId 1) postId 1 from rfl,
        handleVoteF_eq noFailures (handleVote st postId 1) uid postId 1 hst1user,
        updateUserKarmaF_found_general noFailures _ _ postId 1 q rfl hq1]
    have hs2profiles : (fetchPostsF noFailures
        (applyVoteMutation noFailures (handleVote st postId 1) uid postId 1)).db.profiles =
        (handleVote st postId 1).db.profiles := by
      rw [(fetchPostsF_frame _ _).2.1]
      exact (voteMutationDB_frame _ _ _ _ _).1
    rw [h2eq, applyKarmaWrite_ok _ _ _ hw2]
    show ((fetchPostsF noFailures
        (applyVoteMutation noFailures (handleVote st postId 1) uid postId 1)).db.profiles.map
          _).find? _ = _
    rw [hs2profiles, hst1profiles]
    simp only [hqa, h110, hqp]
    rw [find?_profiles_map, find?_profiles_map, hpr]
    have hpid := List.find?_some hpr
    simp only at hpid
    have hpa : pr.id = a := by simpa using hpid
    simp [hpa]
  · rcases htk : pr.total_karma with _ | x
    · simp
    · simp

/-- C3 witness: in `stW` the double up-vote leaves no vote rows, yet the
author's stored karma ends at 10, not at its original 0. -/
theorem upvote_toggle_karma_not_restored_witness :
    (handleVote (handleVote stW 10 1) 10 1).db.votes = [] ∧
    (handleVote (handleVote stW 10 1) 10 1).db.profiles.find? (fun r => r.id == 2) =
      some { id := 2, total_karma := some 10 } ∧
    some ((10:Int)) ≠ profileW.total_karma := by
  have h := upvote_toggle_karma_not_restored stW 1 10 2 postW postW profileW
    (by decide) (by decide) (by decide) (by decide) (by decide) (by decide)
    (by decide) (by decide) (by decide) (by decide)
  refine ⟨?_, ?_, ?_⟩
  · rw [h.1]
    decide
  · rw [h.2.2.1]
    decide
  · simpa using h.2.2.2

/-! Error handling of the vote/karma flow. -/

theorem updateUserKarmaF_karma_fail (f : Failures) (cached : List ClientPost)
    (st : AppState) (postId : Nat) (voteType : Int) (post : ClientPost)
    (hf : f.karmaWrite = true)
    (hfind : cached.find? (fun p => p.id == postId) = some post) :
    updateUserKarmaF f cached st postId voteType =
      { st with errorLog := st.errorLog ++ ["Error updating karma:"] } := by
  unfold updateUserKarmaF
  rw [hfind]
  simp [hf]

theorem fetchPostsF_errorLog (f : Failures) (st : AppState) (hf : f.fetch = false) :
    (fetchPostsF f st).errorLog = st.errorLog := by
  unfold fetchPostsF
  simp [hf]

/-- C4 counterexample: the three vote-table mutations inside `handleVote`
discard the supabase result object (no `{ error }` destructuring, no throw —
supabase-js reports failures in the result, it does not raise), so a failing
vote write produces no console log at all, refuting "every error is caught
at the call site and logged to the console". Concretely, in `stW` a run
whose vote write fails leaves the error log empty, although the same call
against a healthy backend does mutate the votes table — so a backend
failure genuinely occurred and was neither caught-and-logged nor surfaced. -/
theorem handleVote_voteWrite_failure_unlogged :
    (handleVoteF { noFailures with voteWrite := true } stW 10 1).errorLog = [] ∧
    (handleVoteF noFailures stW 10 1).db.votes ≠ stW.db.votes := by
  constructor <;> decide

/-- C4 (amended): no backend-call failure propagates out of `handleVote` or
`updateUserKarma`; failures that reach a `catch` (the karma write) are only
logged to the console, while the vote-write calls' failures are silently
discarded without even a log entry. A karma-write failure after a
successful vote write does not roll back or modify the already-written vote
row, leaves the author's profile unchanged, appends exactly one console log
entry, and changes nothing the user sees (same refreshed posts, same
auth-modal state); a vote-write failure leaves the error log untouched. -/
theorem handleVote_error_swallowing (st : AppState) (uid postId : Nat) (voteType : Int)
    (cp : ClientPost)
    (hu : st.user = some uid)
    (hfind : st.posts.find? (fun p => p.id == postId) = some cp)
    (hw : 0 ≤ cp.profiles.total_karma.getD 0 + (if voteType == 1 then 10 else -5)) :
    (handleVoteF { noFailures with karmaWrite := true } st postId voteType).db.votes =
      (handleVoteF noFailures st postId voteType).db.votes ∧
    (handleVoteF { noFailures with karmaWrite := true } st postId voteType).db.profiles =
      st.db.profiles ∧
    (handleVoteF { noFailures with karmaWrite := true } st postId voteType).errorLog =
      st.errorLog ++ ["Error updating karma:"] ∧
    (handleVoteF { noFailures with karmaWrite := true } st postId voteType).posts =
      (handleVoteF noFailures st postId voteType).posts ∧
    (handleVoteF { noFailures with karmaWrite := true } st postId voteType).showAuthModal =
      st.showAuthModal ∧
    (handleVoteF { noFailures with voteWrite := true } st postId voteType).errorLog =
      st.errorLog := by
  have hKeq : handleVoteF { noFailures with karmaWrite := true } st postId voteType =
      { (fetchPostsF { noFailures with karmaWrite := true }
          (applyVoteMutation { noFailures with karmaWrite := true } st uid postId voteType)) with
        errorLog := (fetchPostsF { noFailures with karmaWrite := true }
          (applyVoteMutation { noFailures with karmaWrite := true }
            st uid postId voteType)).errorLog ++ ["Error updating karma:"] } := by
    rw [handleVoteF_eq _ st uid postId voteType hu,
      updateUserKarmaF_karma_fail _ st.posts _ postId voteType cp rfl hfind]
  have hmidLog : (fetchPostsF { noFailures with karmaWrite := true }
      (applyVoteMutation { noFailures with karmaWrite := true }
        st uid postId voteType)).errorLog = st.errorLog := by
    rw [fetchPostsF_errorLog _ _ rfl]
    rfl
  refine ⟨?_, ?_, ?_, ?_, ?_, ?_⟩
  · rw [handleVote_db_votes _ st uid postId voteType hu,
      handleVote_db_votes noFailures st uid postId voteType hu]
    rfl
  · rw [hKeq]
    show (fetchPostsF _ _).db.profiles = st.db.profiles
    rw [(fetchPostsF_frame _ _).2.1]
    exact (voteMutationDB_frame _ _ _ _ _).1
  · rw [hKeq]
    show (fetchPostsF _ _).errorLog ++ ["Error updating karma:"] = _
    rw [hmidLog]
  · rw [handleVoteF_posts_eq _ st uid postId voteType hu rfl,
      handleVoteF_posts_eq noFailures st uid postId voteType hu rfl]
    rfl
  · rw [hKeq]
    show (fetchPostsF _ _).showAuthModal = st.showAuthModal
    rw [(fetchPostsF_frame _ _).2.2.2]
    rfl
  · rw [handleVoteF_eq _ st uid postId voteType hu,
      updateUserKarmaF_found_general _ st.posts _ postId voteType cp rfl hfind,
      applyKarmaWrite_ok _ _ _ hw]
    show (fetchPostsF _ _).errorLog = st.errorLog
    rw [fetchPostsF_errorLog _ _ rfl]
    rfl

/-- C4 witness: in `stW` a failing karma write logs exactly one console
entry while the inserted vote row stays in place. -/
theorem handleVote_error_swallowing_witness :
    (handleVoteF { noFailures with karmaWrite := true } stW 10 1).errorLog =
      ["Error updating karma:"] ∧
    (handleVoteF { noFailures with karmaWrite := true } stW 10 1).db.votes =
      [{ id := 0, user_id := 1, post_id := 10, vote_type := 1 }] := by
  have h := handleVote_error_swallowing stW 1 10 1 postW (by decide) (by decide) (by decide)
  constructor
  · rw [h.2.2.1]
    decide
  · rw [h.1]
    decide

/-! Behaviour of the community membership flow. -/

theorem singleRow_single {α : Type} (x : α) : singleRow [x] = some x := rfl

theorem singleRow_nil {α : Type} : singleRow ([] : List α) = none := rfl

theorem updateCommunityCount_ok (db : DB) (cid : Nat) (n : Int) (hn : 0 ≤ n) :
    updateCommunityCount db cid n =
      { db with communities := db.communities.map (fun c =>
          if c.id == cid then { c with member_count := n } else c) } := by
  have hd : decide (n < 0) = false := decide_eq_false (not_lt.mpr hn)
  unfold updateCommunityCount
  simp [hd]

theorem updateCommunityCount_mem (db : DB) (cid : Nat) (v : Int) :
    ∀ x ∈ (updateCommunityCount db cid v).communities,
      x ∈ db.communities ∨ 0 ≤ x.member_count := by
  unfold updateCommunityCount
  split
  · exact fun x hx => Or.inl hx
  · rename_i hguard
    intro x hx
    rcases List.mem_map.mp hx with ⟨y, hy, rfl⟩
    by_cases hid : (y.id == cid) = true
    · simp only [hid, if_true]
      by_cases hv : 0 ≤ v
      · exact Or.inr hv
      · exfalso
        apply hguard
        have hany : db.communities.any (fun c => c.id == cid) = true :=
          List.any_eq_true.mpr ⟨y, hy, hid⟩
        simp [hany]
        omega
    · simp only [hid, if_false]
      exact Or.inl hy

theorem joinCommunity_db (st : AppState) (uid cid : Nat) (hu : st.user = some uid) :
    (joinCommunity st cid).db = (joinCommunityCore st uid cid).db := by
  unfold joinCommunity
  rw [hu]

theorem joinCommunity_refresh (st : AppState) (uid cid : Nat) (hu : st.user = some uid) :
    (joinCommunity st cid).communities =
      fetchCommunitiesQuery (joinCommunityCore st uid cid).db := by
  unfold joinCommunity
  rw [hu]

theorem joinCommunityCore_leave_cached (st : AppState) (uid cid : Nat)
    (m : DBMember) (c : ClientCommunity)
    (hm : st.db.members.filter (memberKey cid uid) = [m])
    (hc : st.communities.find? (fun x : ClientCommunity => x.id == cid) = some c) :
    joinCommunityCore st uid cid =
      { st with db := { st.db with
          members := st.db.members.filter (fun w => w.id != m.id),
          communities := st.db.communities.map (fun x =>
            if x.id == cid then { x with member_count := max 0 (c.member_count - 1) }
            else x) } } := by
  unfold joinCommunityCore
  simp only [hm, singleRow_single, hc]
  rw [updateCommunityCount_ok _ _ _ (le_max_left _ _)]

theorem joinCommunityCore_leave_uncached (st : AppState) (uid cid : Nat) (m : DBMember)
    (hm : st.db.members.filter (memberKey cid uid) = [m])
    (hc : st.communities.find? (fun x : ClientCommunity => x.id == cid) = none) :
    joinCommunityCore st uid cid =
      { st with db := { st.db with
          members := st.db.members.filter (fun w => w.id != m.id) } } := by
  unfold joinCommunityCore
  simp only [hm, singleRow_single, hc]

theorem joinCommunityCore_join_cached (st : AppState) (uid cid : Nat)
    (c : ClientCommunity)
    (hm : st.db.members.filter (memberKey cid uid) = [])
    (hc : st.communities.find? (fun x : ClientCommunity => x.id == cid) = some c)
    (hcnt : 0 ≤ c.member_count) :
    joinCommunityCore st uid cid =
      { st with db := { st.db with
          members := st.db.members ++
            [({ id := st.db.nextMemberId, community_id := cid, user_id := uid } : DBMember)],
          nextMemberId := st.db.nextMemberId + 1,
          communities := st.db.communities.map (fun x =>
            if x.id == cid then { x with member_count := c.member_count + 1 }
            else x) } } := by
  have hany : st.db.members.any (memberKey cid uid) = false := by
    rw [List.any_eq_false]
    exact fun x hx => List.filter_eq_nil_iff.mp hm x hx
  unfold joinCommunityCore
  simp only [hm, singleRow_nil, hany, Bool.false_eq_true, if_false, hc]
  rw [updateCommunityCount_ok _ _ _ (by omega)]

theorem joinCommunityCore_join_uncached (st : AppState) (uid cid : Nat)
    (hm : st.db.members.filter (memberKey cid uid) = [])
    (hc : st.communities.find? (fun x : ClientCommunity => x.id == cid) = none) :
    joinCommunityCore st uid cid =
      { st with db := { st.db with
          members := st.db.members ++
            [({ id := st.db.nextMemberId, community_id := cid, user_id := uid } : DBMember)],
          nextMemberId := st.db.nextMemberId + 1 } } := by
  have hany : st.db.members.any (memberKey cid uid) = false := by
    rw [List.any_eq_false]
    exact fun x hx => List.filter_eq_nil_iff.mp hm x hx
  unfold joinCommunityCore
  simp only [hm, singleRow_nil, hany, Bool.false_eq_true, if_false, hc]

theorem joinCommunityCore_communities_mem (st : AppState) (uid cid : Nat) :
    ∀ x ∈ (joinCommunityCore st uid cid).db.communities,
      x ∈ st.db.communities ∨ 0 ≤ x.member_count := by
  unfold joinCommunityCore
  dsimp only
  repeat' split
  · exact fun x hx => (updateCommunityCount_mem _ _ _ x hx).imp_left (fun h => h)
  · exact fun x hx => Or.inl hx
  · exact fun x hx => (updateCommunityCount_mem _ _ _ x hx).imp_left (fun h => h)
  · exact fun x hx => (updateCommunityCount_mem _ _ _ x hx).imp_left (fun h => h)
  · exact fun x hx => Or.inl hx
  · exact fun x hx => Or.inl hx

/-- C6 counterexample: in `stC` user 1 is a member of community 5 whose
cached (and stored) `member_count` is 0. Leaving deletes the membership row,
but the counter written is `max(0, 0 - 1) = 0`, not the claimed decrement by
1 (which would be `-1`): the value stays 0 and `0 ≠ 0 - 1`. -/
theorem joinCommunity_decrement_clamped_cex :
    (joinCommunity stC 5).db.members = [] ∧
    (joinCommunity stC 5).db.communities = [{ id := 5, member_count := 0 }] ∧
    ¬((0:Int) = 0 - 1) := by
  refine ⟨by decide, by decide, by decide⟩

/-- C6 (amended): for every `joinCommunity(communityId)` by a logged-in
user: if a membership row for `(communityId, user)` exists, that row is
deleted and then — only when the community is present in the cached
`communities` list, with cached count `c` — `member_count` is set to
`max(0, c - 1)` by a separate update call (no counter write happens when the
community is absent from the cache); otherwise a membership row is inserted
and, under the same cache condition, `member_count` is set to `c + 1` by a
separate update call. The counter write follows the membership mutation as
a distinct, non-atomic call, and `fetchCommunities` then refreshes the
cached list from the resulting database. -/
theorem joinCommunity_spec (st : AppState) (uid cid : Nat) (hu : st.user = some uid) :
    (∀ m : DBMember, st.db.members.filter (memberKey cid uid) = [m] →
      (joinCommunity st cid).db.members =
        st.db.members.filter (fun w => w.id != m.id) ∧
      (∀ c : ClientCommunity,
        st.communities.find? (fun x : ClientCommunity => x.id == cid) = some c →
        (joinCommunity st cid).db.communities =
          st.db.communities.map (fun x =>
            if x.id == cid then { x with member_count := max 0 (c.member_count - 1) }
            else x)) ∧
      (st.communities.find? (fun x : ClientCommunity => x.id == cid) = none →
        (joinCommunity st cid).db.communities = st.db.communities))
  ∧ (st.db.members.filter (memberKey cid uid) = [] →
      (joinCommunity st cid).db.members =
        st.db.members ++
          [({ id := st.db.nextMemberId, community_id := cid, user_id := uid } : DBMember)] ∧
      (∀ c : ClientCommunity,
        st.communities.find? (fun x : ClientCommunity => x.id == cid) = some c →
        0 ≤ c.member_count →
        (joinCommunity st cid).db.communities =
          st.db.communities.map (fun x =>
            if x.id == cid then { x with member_count := c.member_count + 1 } else x)) ∧
      (st.communities.find? (fun x : ClientCommunity => x.id == cid) = none →
        (joinCommunity st cid).db.communities = st.db.communities))
  ∧ (joinCommunity st cid).communities =
      fetchCommunitiesQuery (joinCommunity st cid).db := by
  refine ⟨?_, ?_, ?_⟩
  · intro m hm
    refine ⟨?_, ?_, ?_⟩
    · cases hfc : st.communities.find? (fun x : ClientCommunity => x.id == cid) with
      | some c =>
        rw [joinCommunity_db st uid cid hu, joinCommunityCore_leave_cached st uid cid m c hm hfc]
      | none =>
        rw [joinCommunity_db st uid cid hu, joinCommunityCore_leave_uncached st uid cid m hm hfc]
    · intro c hfc
      rw [joinCommunity_db st uid cid hu, joinCommunityCore_leave_cached st uid cid m c hm hfc]
    · intro hfc
      rw [joinCommunity_db st uid cid hu, joinCommunityCore_leave_uncached st uid cid m hm hfc]
  · intro hm
    refine ⟨?_, ?_, ?_⟩
    · cases hfc : st.communities.find? (fun x : ClientCommunity => x.id == cid) with
      | some c =>
        by_cases hcnt : 0 ≤ c.member_count
        · rw [joinCommunity_db st uid cid hu,
            joinCommunityCore_join_cached st uid cid c hm hfc hcnt]
        · rw [joinCommunity_db st uid cid hu]
          unfold joinCommunityCore
          have hany : st.db.members.any (memberKey cid uid) = false := by
            rw [List.any_eq_false]
            exact fun x hx => List.filter_eq_nil_iff.mp hm x hx
          simp only [hm, singleRow_nil, hany, Bool.false_eq_true, if_false, hfc]
          unfold updateCommunityCount
          split <;> rfl
      | none =>
        rw [joinCommunity_db st uid cid hu, joinCommunityCore_join_uncached st uid cid hm hfc]
    · intro c hfc hcnt
      rw [joinCommunity_db st uid cid hu, joinCommunityCore_join_cached st uid cid c hm hfc hcnt]
    · intro hfc
      rw [joinCommunity_db st uid cid hu, joinCommunityCore_join_uncached st uid cid hm hfc]
  · rw [joinCommunity_refresh st uid cid hu, joinCommunity_db st uid cid hu]

/-- C6 witness: in `stC`, leaving community 5 removes the membership row and
writes the clamped counter 0. -/
theorem joinCommunity_spec_witness :
    (joinCommunity stC 5).db.members = [] ∧
    (joinCommunity stC 5).db.communities = [{ id := 5, member_count := 0 }] := by
  have h := (joinCommunity_spec stC 1 5 (by decide)).1
    { id := 0, community_id := 5, user_id := 1 } (by decide)
  refine ⟨?_, ?_⟩
  · rw [h.1]
    decide
  · rw [h.2.1 { id := 5, member_count := 0 } (by decide)]
    decide

/-- C9: when leaving a community the counter value the client writes is
`max(0, c - 1)` computed from the cached community record `c` — clamped at
zero even when the cached count is already 0, hence non-negative; when
joining with a non-negatively cached count the written value `c + 1` is
non-negative too; and in every case each community row after `joinCommunity`
is either an untouched original row or carries a non-negative
`member_count` — `joinCommunity` never leaves a fresh negative counter. -/
theorem joinCommunity_writes_nonneg (st : AppState) (uid cid : Nat)
    (hu : st.user = some uid) :
    (∀ (m : DBMember) (c : ClientCommunity),
      st.db.members.filter (memberKey cid uid) = [m] →
      st.communities.find? (fun x : ClientCommunity => x.id == cid) = some c →
      (joinCommunity st cid).db.communities =
        st.db.communities.map (fun x =>
          if x.id == cid then { x with member_count := max 0 (c.member_count - 1) }
          else x) ∧
      0 ≤ max 0 (c.member_count - 1))
  ∧ (∀ c : ClientCommunity,
      st.db.members.filter (memberKey cid uid) = [] →
      st.communities.find? (fun x : ClientCommunity => x.id == cid) = some c →
      0 ≤ c.member_count →
      (joinCommunity st cid).db.communities =
        st.db.communities.map (fun x =>
          if x.id == cid then { x with member_count := c.member_count + 1 } else x) ∧
      0 ≤ c.member_count + 1)
  ∧ ∀ x ∈ (joinCommunity st cid).db.communities,
      x ∈ st.db.communities ∨ 0 ≤ x.member_count := by
  refine ⟨?_, ?_, ?_⟩
  · intro m c hm hfc
    rw [joinCommunity_db st uid cid hu, joinCommunityCore_leave_cached st uid cid m c hm hfc]
    exact ⟨rfl, le_max_left _ _⟩
  · intro c hm hfc hcnt
    rw [joinCommunity_db st uid cid hu, joinCommunityCore_join_cached st uid cid c hm hfc hcnt]
    exact ⟨rfl, by omega⟩
  · intro x hx
    rw [joinCommunity_db st uid cid hu] at hx
    exact joinCommunityCore_communities_mem st uid cid x hx

/-- C9 witness: in `stC` the cached count is already 0 and the value written
on leaving is `max(0, 0 - 1) = 0`, non-negative. -/
theorem joinCommunity_writes_nonneg_witness :
    (joinCommunity stC 5).db.communities = [{ id := 5, member_count := 0 }] ∧
    (0:Int) ≤ max 0 (0 - 1) := by
  have h := (joinCommunity_writes_nonneg stC 1 5 (by decide)).1
    { id := 0, community_id := 5, user_id := 1 } { id := 5, member_count := 0 }
    (by decide) (by decide)
  refine ⟨?_, h.2⟩
  rw [h.1]
  decide

/-! The client-side rate limiter. -/

theorem lookup_setEntry (m : List (String × List Int)) (key : String) (v : List Int) :
    (setEntry m key v).lookup key = some v := by
  induction m with
  | nil => simp [setEntry, List.lookup]
  | cons hd tl ih =>
    rcases hd with ⟨k, b⟩
    by_cases hk : k = key
    · subst hk
      simp [setEntry, List.lookup]
    · have hk2 : (k == key) = false := beq_eq_false_iff_ne.mpr hk
      have hk3 : (key == k) = false := beq_eq_false_iff_ne.mpr (Ne.symm hk)
      simp [setEntry, hk2, List.lookup, hk3, ih]

theorem canAttempt_attempts (rl : RateLimiter) (now : Int) (key : String) :
    ((rl.canAttempt now key).2).getAttempts key =
      (rl.getAttempts key).filter (fun t => now - t < rl.windowMs) := by
  unfold RateLimiter.canAttempt RateLimiter.getAttempts
  dsimp only
  rw [lookup_setEntry]
  rfl

/-- C7: `canAttempt(key)` answers `true` exactly when strictly fewer than
`maxAttempts` of the recorded attempts for that key fall within the
trailing `windowMs` window; attempts older than the window are discarded in
place (the stored list becomes exactly the in-window sublist) and never
block — re-asking on the pruned state answers the same; and
`getRemainingTime(key)` returns 0 whenever the recorded attempts for that
key number fewer than `maxAttempts`. -/
theorem rateLimiter_spec (rl : RateLimiter) (key : String) (now : Int) :
    ((rl.canAttempt now key).1 = true ↔
      (rl.getAttempts key).countP (fun t => now - t < rl.windowMs) < rl.maxAttempts)
  ∧ ((rl.canAttempt now key).2.getAttempts key =
      (rl.getAttempts key).filter (fun t => now - t < rl.windowMs))
  ∧ (((rl.canAttempt now key).2.canAttempt now key).1 = (rl.canAttempt now key).1)
  ∧ ((rl.getAttempts key).length < rl.maxAttempts → rl.getRemainingTime now key = 0) := by
  have hfst : ∀ x : RateLimiter, (x.canAttempt now key).1 =
      decide (((x.getAttempts key).filter
        (fun t => now - t < x.windowMs)).length < x.maxAttempts) := fun x => rfl
  refine ⟨?_, canAttempt_attempts rl now key, ?_, ?_⟩
  · rw [hfst, List.countP_eq_length_filter, decide_eq_true_iff]
  · rw [hfst, hfst, canAttempt_attempts rl now key]
    have hwin : ((rl.canAttempt now key).2).windowMs = rl.windowMs := rfl
    have hmax : ((rl.canAttempt now key).2).maxAttempts = rl.maxAttempts := rfl
    rw [hwin, hmax, List.filter_filter]
    rw [List.filter_congr (fun x _ => Bool.and_self _)]
  · intro hlen
    unfold RateLimiter.getRemainingTime
    simp [hlen]

/-- C7 witness: with two recorded attempts and a limit of three, the
remaining cooldown is 0. -/
theorem rateLimiter_spec_witness :
    RateLimiter.getRemainingTime
      { attempts := [("k", [0, 1])], maxAttempts := 3, windowMs := 900000 } 5 "k" = 0 :=
  (rateLimiter_spec { attempts := [("k", [0, 1])], maxAttempts := 3, windowMs := 900000 }
    "k" 5).2.2.2 (by decide)

/-! Composition of the signup validators. -/

/-- C8: `validateSignupData` returns, in order, the concatenation of the
error lists of `validateEmail`, `validatePassword`, `validateUsername` and
`validateDisplayName`, and is valid exactly when all four return no errors;
`signUp` runs this check (on the trimmed inputs) before any backend call,
and when validation fails it returns the errors joined by ". " with the
backend never contacted. -/
theorem validateSignupData_spec (d : SignupData) (rl : RateLimiter) (now : Int)
    (email password username displayName : String) :
    ((validateSignupData d).errors =
      (validateEmail d.email).errors ++ (validatePassword d.password).errors ++
        (validateUsername d.username).errors ++ (validateDisplayName d.displayName).errors)
  ∧ ((validateSignupData d).isValid = true ↔
      ((validateEmail d.email).errors = [] ∧ (validatePassword d.password).errors = [] ∧
        (validateUsername d.username).errors = [] ∧
        (validateDisplayName d.displayName).errors = []))
  ∧ ((rl.canAttempt now "client-signup").1 = true →
      (validateSignupData
        { email := trimStr email, password := password,
          username := trimStr username, displayName := trimStr displayName }).isValid =
        false →
      signUp rl now email password username displayName =
        (SignUpResult.validationFailed (String.intercalate ". "
          (validateSignupData
            { email := trimStr email, password := password,
              username := trimStr username,
              displayName := trimStr displayName }).errors),
         false)) := by
  refine ⟨rfl, ?_, ?_⟩
  · unfold validateSignupData
    dsimp only
    rw [beq_iff_eq, List.length_eq_zero, List.append_eq_nil, List.append_eq_nil,
      List.append_eq_nil]
    tauto
  · intro hrl hval
    unfold signUp
    rw [hrl]
    dsimp only
    rw [hval]
    rfl

/-- C8 witness: all-empty signup data fails all four validators; `signUp`
returns the joined messages and makes no backend call. -/
theorem validateSignupData_spec_witness :
    signUp { attempts := [], maxAttempts := 3, windowMs := 900000 } 0 "" "" "" "" =
      (SignUpResult.validationFailed
        ("Email is required. Password is required. " ++
          "Username is required. Display name is required"),
       false) := by
  have h := (validateSignupData_spec
    { email := "", password := "", username := "", displayName := "" }
    { attempts := [], maxAttempts := 3, windowMs := 900000 } 0 "" "" "" "").2.2
    (by decide) (by decide)
  rw [h]
  decide
